import Mathlib

/-
Verification of the concurrent device-IO layer of gazoo-device:
the Pigweed HDLC RPC transport (pigweed_rpc_transport.py) and the
parallel task executor (parallel_utils.py).

Stateful Python code is embedded as explicit state passing; machine
effects such as thread liveness, join timeouts and handler exceptions
are inputs to the model functions.
-/

namespace Gazoo

/-- Address of the log channel, STDOUT_ADDRESS = 1 in pigweed_rpc_transport.py. -/
def STDOUT_ADDRESS : Nat := 1

/-- Address of the RPC channel, DEFAULT_ADDRESS = ord R = 82 in pigweed_rpc_transport.py. -/
def DEFAULT_ADDRESS : Nat := 82

/-- Model of an HDLC frame as seen by PwHdlcRpcClient: its address, its data
bytes, and the result of the integrity check frame.ok(). -/
structure Frame where
  address : Nat
  data : List Nat
  ok : Bool
deriving DecidableEq

/-- Logical channel a frame can be delivered to by the dispatch step. -/
inductive Channel
  | rpc
  | log
deriving DecidableEq

/-- Observable effects of one PwHdlcRpcClient handle-frame invocation:
which handler the frame was delivered to, whether an exception escaped the
call, whether an exception was caught and logged, and whether the
unhandled-address warning was logged. -/
structure FrameResult where
  delivered : Option Channel
  escaped : Bool
  loggedExc : Bool
  warned : Bool
deriving DecidableEq

/-- Environment describing whether the RPC packet handler or the log-queue
put raises an exception on a given frame. -/
structure HandlerEnv where
  rpcRaises : Frame → Bool
  logRaises : Frame → Bool

/-- Body of PwHdlcRpcClient handle-frame before its try-except: if
frame.ok() is false, return at once; otherwise dispatch on the address,
delivering to the RPC handler for DEFAULT_ADDRESS, to the log queue for
STDOUT_ADDRESS, and logging a warning for any other address. An exception
raised by a handler escapes this body. -/
def handleFrameBody (env : HandlerEnv) (f : Frame) : FrameResult :=
  if !f.ok then ⟨none, false, false, false⟩
  else if f.address = DEFAULT_ADDRESS then ⟨some Channel.rpc, env.rpcRaises f, false, false⟩
  else if f.address = STDOUT_ADDRESS then ⟨some Channel.log, env.logRaises f, false, false⟩
  else ⟨none, false, false, true⟩

/-- PwHdlcRpcClient handle-frame: the body wrapped in the try-except that
catches every exception and logs it. -/
def handleFrame (env : HandlerEnv) (f : Frame) : FrameResult :=
  if (handleFrameBody env f).escaped then
    { handleFrameBody env f with escaped := false, loggedExc := true }
  else handleFrameBody env f

/-- Inner frame loop of read_and_process_data: each decoded frame is passed
to handle-frame in order; an exception escaping a handle-frame call would
abort the loop before the remaining frames. -/
def processFramesLoop (env : HandlerEnv) : List Frame → List FrameResult
  | [] => []
  | f :: rest =>
    if (handleFrame env f).escaped then [handleFrame env f]
    else handleFrame env f :: processFramesLoop env rest

/-- State of a PwHdlcRpcClient: the stop event, and the worker field which
is none when no worker thread object exists and some b when a worker object
exists whose thread-alive status is b. -/
structure ClientState where
  stopSet : Bool
  worker : Option Bool
deriving DecidableEq

/-- PwHdlcRpcClient is-alive: a worker object exists and its thread is alive. -/
def isAlive (s : ClientState) : Bool :=
  match s.worker with
  | some alive => alive
  | none => false

/-- PwHdlcRpcClient start: clears the stop event if it is set; creates and
starts a new worker thread only when the worker field is none. Returns the
new state and the number of threads launched by this call. -/
def start (s : ClientState) : ClientState × Nat :=
  let s1 := if s.stopSet then { s with stopSet := false } else s
  match s1.worker with
  | none => ({ s1 with worker := some true }, 1)
  | some _ => (s1, 0)

/-- Result of PwHdlcRpcClient close: the state after the call, whether the
join-timeout DeviceError was raised, and whether a join on the worker
thread was attempted. -/
structure CloseResult where
  state : ClientState
  raised : Bool
  joinAttempted : Bool
deriving DecidableEq

/-- PwHdlcRpcClient close: sets the stop event; if a worker object exists,
joins it with the bounded JOIN_TIMEOUT_SEC timeout; if the thread is still
alive after the join, raises a DeviceError leaving the worker field
untouched; otherwise clears the worker field. The parameter
workerExitsInTime models whether the thread exits within the join timeout. -/
def close (s : ClientState) (workerExitsInTime : Bool) : CloseResult :=
  let s1 : ClientState := { s with stopSet := true }
  match s1.worker with
  | none => ⟨s1, false, false⟩
  | some alive =>
    if alive && !workerExitsInTime then ⟨s1, true, true⟩
    else ⟨{ s1 with worker := none }, false, true⟩

/-- Record of which steps of PigweedRPCTransport close were attempted, and
the error that propagated to the caller, if any. -/
structure TransportCloseTrace where
  stopWorkerAttempted : Bool
  unlockAttempted : Bool
  serialCloseAttempted : Bool
  error : Option String
deriving DecidableEq

/-- PigweedRPCTransport close: runs the hdlc client close, then
fcntl.flock(LOCK_UN) on the serial handle, then serial close, as three
plain sequential statements with no try-finally: the first step that
raises aborts the remaining steps and its error propagates to the caller. -/
def transportClose (s : ClientState) (workerExitsInTime : Bool)
    (unlockRaises : Bool) (serialCloseRaises : Bool) :
    TransportCloseTrace × ClientState :=
  if (close s workerExitsInTime).raised then
    (⟨true, false, false, some "DeviceError"⟩, (close s workerExitsInTime).state)
  else if unlockRaises then
    (⟨true, true, false, some "OSError"⟩, (close s workerExitsInTime).state)
  else if serialCloseRaises then
    (⟨true, true, true, some "SerialException"⟩, (close s workerExitsInTime).state)
  else (⟨true, true, true, none⟩, (close s workerExitsInTime).state)

/-- Sentinel result value NO_RESULT of parallel_utils.py. -/
def NO_RESULT : String := "< No result received >"

/-- Escalation re-join timeout, TIMEOUT_TERMINATE_PROCESS = 3 seconds in
parallel_utils.py, used for both the post-terminate and the post-kill join. -/
def TIMEOUT_TERMINATE_PROCESS : ℚ := 3

/-- Worst-case timing behavior of one spawned process: the absolute time at
which it exits on its own (none if it never exits by itself), and whether
it dies promptly on terminate and on kill. -/
structure ProcBehavior where
  selfExit : Option ℚ
  diesOnTerminate : Bool
  diesOnKill : Bool

/-- Time at which a join with timeout d called at time now returns, for a
process that exits on its own at exitTime: the join returns as soon as the
process has exited, and at the latest when the timeout elapses. -/
def joinWait (exitTime : Option ℚ) (now d : ℚ) : ℚ :=
  match exitTime with
  | none => now + d
  | some te => max now (min te (now + d))

/-- Whether a process that exits on its own at exitTime is still alive at
time t. -/
def aliveAt (exitTime : Option ℚ) (t : ℚ) : Bool :=
  match exitTime with
  | none => true
  | some te => decide (t < te)

/-- End time and escalation events of the per-process block of the join
loop of execute_concurrently. -/
structure ProcOutcome where
  endTime : ℚ
  terminated : Bool
  killed : Bool

/-- Per-process block of the join loop of execute_concurrently: join with
whatever remains of the shared deadline (clamped to be nonnegative); if the
process is still alive, terminate it and re-join for
TIMEOUT_TERMINATE_PROCESS; if it is still alive after that, kill it and
re-join for TIMEOUT_TERMINATE_PROCESS. A process that dies promptly on
terminate or kill makes the corresponding re-join return at once. -/
def handleProcess (deadline now : ℚ) (p : ProcBehavior) : ProcOutcome :=
  let remaining := max 0 (deadline - now)
  let t1 := joinWait p.selfExit now remaining
  if aliveAt p.selfExit t1 then
    if p.diesOnTerminate then ⟨t1, true, false⟩
    else
      let t2 := joinWait p.selfExit t1 TIMEOUT_TERMINATE_PROCESS
      if aliveAt p.selfExit t2 then
        if p.diesOnKill then ⟨t2, true, true⟩
        else ⟨joinWait p.selfExit t2 TIMEOUT_TERMINATE_PROCESS, true, true⟩
      else ⟨t2, true, false⟩
  else ⟨t1, false, false⟩

/-- Time at which the sequential join loop of execute_concurrently
finishes, starting from time now: the processes are handled one after the
other, each consuming wall-clock time. -/
def shutdownLoop (deadline : ℚ) : ℚ → List ProcBehavior → ℚ
  | now, [] => now
  | now, p :: rest => shutdownLoop deadline (handleProcess deadline now p).endTime rest

/-- Wall-clock time at which the join loop of execute_concurrently
completes for a batch started at time 0, so that the shared deadline
computed at launch equals the timeout argument. -/
def shutdownTime (deadline : ℚ) (procs : List ProcBehavior) : ℚ :=
  shutdownLoop deadline 0 procs

/-- Process that never exits on its own and responds to neither terminate
nor kill, modeling a process stuck in uninterruptible state. -/
def stubbornProc : ProcBehavior := ⟨none, false, false⟩

/-- Outcome of one parallel process as produced by the process wrapper of
parallel_utils.py: it enqueues (id, value) on the return queue if the
function returns, (id, (kind, message)) on the error queue if the function
raises, and nothing at all if the process was killed or died before
reporting. -/
inductive Outcome
  | returned (v : String)
  | raised (kind msg : String)
  | noMessage
deriving DecidableEq

/-- Applies drained queue messages in order: each message (id, value)
performs the assignment of value to slot id of the accumulator list. -/
def applyQueue {α : Type} (init : List α) (msgs : List (Nat × α)) : List α :=
  msgs.foldl (fun acc m => acc.set m.1 m.2) init

/-- Queue contents generated by a batch of process outcomes: one entry per
process for which f yields a message, tagged with the process index,
starting from index k. -/
def queueFrom {α : Type} (f : Outcome → Option α) : Nat → List Outcome → List (Nat × α)
  | _, [] => []
  | k, b :: rest =>
    match f b with
    | some v => (k, v) :: queueFrom f (k + 1) rest
    | none => queueFrom f (k + 1) rest

/-- Message a process outcome contributes to the return queue. -/
def outcomeReturn : Outcome → Option String
  | Outcome.returned v => some v
  | _ => none

/-- Message a process outcome contributes to the error queue. -/
def outcomeError : Outcome → Option (String × String)
  | Outcome.raised kind msg => some (kind, msg)
  | _ => none

/-- Return queue contents for a batch, in process-index order. -/
def returnQueueOf (bs : List Outcome) : List (Nat × String) :=
  queueFrom outcomeReturn 0 bs

/-- Error queue contents for a batch, in process-index order. -/
def errorQueueOf (bs : List Outcome) : List (Nat × (String × String)) :=
  queueFrom outcomeError 0 bs

/-- Synthesized error recorded by execute_concurrently for an index with
neither a result nor an error: the ResultNotReceivedError kind with its
message. -/
def sentinelError : String × String :=
  ("ResultNotReceivedError", "Did not receive any results from the process.")

/-- Reconciliation loop of execute_concurrently: for each index below n, if
the result slot still holds NO_RESULT and the error slot holds none, store
the synthesized no-result error in the error slot. -/
def reconcile (n : Nat) (results : List String)
    (errors : List (Option (String × String))) : List (Option (String × String)) :=
  (List.range n).foldl
    (fun errs i =>
      if results.getD i "" = NO_RESULT ∧ errs.getD i none = none then
        errs.set i (some sentinelError)
      else errs)
    errors

/-- Result list of execute_concurrently before reconciliation: initialized
to NO_RESULT for every index, then overwritten by the drained return-queue
messages. -/
def gatherResults (n : Nat) (retq : List (Nat × String)) : List String :=
  applyQueue (List.replicate n NO_RESULT) retq

/-- Error list of execute_concurrently before reconciliation: initialized
to none for every index, then overwritten by the drained error-queue
messages. -/
def gatherErrors (n : Nat) (errq : List (Nat × (String × String))) :
    List (Option (String × String)) :=
  applyQueue (List.replicate n none) (errq.map fun m => (m.1, some m.2))

/-- Collection phase of execute_concurrently for given drained queue
contents: gathers results and errors, reconciles unresolved slots, then
either raises one aggregate ParallelUtilsError carrying every per-task
error (when raise_on_process_error is true and some error is present) or
returns the result and error lists. -/
def collectPhase (n : Nat) (retq : List (Nat × String))
    (errq : List (Nat × (String × String))) (raiseOnProcessError : Bool) :
    Except (List (Option (String × String)))
      (List String × List (Option (String × String))) :=
  if raiseOnProcessError &&
      (reconcile n (gatherResults n retq) (gatherErrors n errq)).any Option.isSome then
    Except.error (reconcile n (gatherResults n retq) (gatherErrors n errq))
  else
    Except.ok (gatherResults n retq, reconcile n (gatherResults n retq) (gatherErrors n errq))

/-- Result of execute_concurrently for a batch whose process behaviors are
bs, where process i runs call spec i; the queues hold one message per
returned or raised process, here in index order (other completion orders
are related to this one by the order-independence theorem). -/
def executeConcurrently (bs : List Outcome) (raiseOnProcessError : Bool) :
    Except (List (Option (String × String)))
      (List String × List (Option (String × String))) :=
  collectPhase bs.length (returnQueueOf bs) (errorQueueOf bs) raiseOnProcessError

/-- Applying a queue message list starts by applying its head assignment. -/
theorem applyQueue_cons {α : Type} (init : List α) (m : Nat × α) (rest : List (Nat × α)) :
    applyQueue init (m :: rest) = applyQueue (init.set m.1 m.2) rest := rfl

/-- Applying queue messages preserves the length of the slot list. -/
theorem applyQueue_length {α : Type} (msgs : List (Nat × α)) (init : List α) :
    (applyQueue init msgs).length = init.length := by
  induction msgs generalizing init with
  | nil => rfl
  | cons m rest ih => rw [applyQueue_cons, ih, List.length_set]

/-- Slots below the first index of a queue segment are untouched by it. -/
theorem applyQueue_queueFrom_lt {α : Type} (f : Outcome → Option α) (bs : List Outcome) :
    ∀ (k : Nat) (init : List α) (j : Nat), j < k →
      (applyQueue init (queueFrom f k bs))[j]? = init[j]? := by
  induction bs with
  | nil => intro k init j _; rfl
  | cons b rest ih =>
    intro k init j hj
    cases hfb : f b with
    | some v =>
      rw [queueFrom, hfb]
      rw [applyQueue_cons]
      rw [ih (k + 1) (init.set k v) j (by omega)]
      exact List.getElem?_set_ne (by omega)
    | none =>
      rw [queueFrom, hfb]
      exact ih (k + 1) init j (by omega)

/-- Slot value after applying a queue segment, for a process whose outcome
contributes a message: the slot holds that message value. -/
theorem applyQueue_queueFrom_hit {α : Type} (f : Outcome → Option α) (d : Outcome)
    (bs : List Outcome) :
    ∀ (k : Nat) (init : List α) (t : Nat) (v : α), t < bs.length →
      k + bs.length ≤ init.length → f (bs.getD t d) = some v →
      (applyQueue init (queueFrom f k bs))[k + t]? = some v := by
  induction bs with
  | nil => intro k init t v ht _ _; simp at ht
  | cons b rest ih =>
    intro k init t v ht hlen hv
    cases t with
    | zero =>
      rw [List.getD_cons_zero] at hv
      rw [queueFrom, hv]
      rw [applyQueue_cons]
      show (applyQueue (init.set k v) (queueFrom f (k + 1) rest))[k]? = some v
      rw [applyQueue_queueFrom_lt f rest (k + 1) (init.set k v) k (by omega)]
      have hk : k < init.length := by simp at hlen; omega
      exact List.getElem?_set_self (by simpa using hk)
    | succ u =>
      rw [List.getD_cons_succ] at hv
      have hidx : k + (u + 1) = (k + 1) + u := by omega
      rw [hidx]
      cases hfb : f b with
      | some w =>
        rw [queueFrom, hfb, applyQueue_cons]
        exact ih (k + 1) (init.set k w) u v (by simpa using ht)
          (by simp at hlen ⊢; omega) hv
      | none =>
        rw [queueFrom, hfb]
        exact ih (k + 1) init u v (by simpa using ht) (by simp at hlen ⊢; omega) hv

/-- Slot value after applying a queue segment, for a process whose outcome
contributes no message: the slot keeps its initial value. -/
theorem applyQueue_queueFrom_miss {α : Type} (f : Outcome → Option α) (d : Outcome)
    (bs : List Outcome) :
    ∀ (k : Nat) (init : List α) (t : Nat), t < bs.length →
      f (bs.getD t d) = none →
      (applyQueue init (queueFrom f k bs))[k + t]? = init[k + t]? := by
  induction bs with
  | nil => intro k init t ht _; simp at ht
  | cons b rest ih =>
    intro k init t ht hv
    cases t with
    | zero =>
      rw [List.getD_cons_zero] at hv
      rw [queueFrom, hv]
      show (applyQueue init (queueFrom f (k + 1) rest))[k]? = init[k]?
      exact applyQueue_queueFrom_lt f rest (k + 1) init k (by omega)
    | succ u =>
      rw [List.getD_cons_succ] at hv
      have hidx : k + (u + 1) = (k + 1) + u := by omega
      rw [hidx]
      cases hfb : f b with
      | some w =>
        rw [queueFrom, hfb, applyQueue_cons]
        rw [ih (k + 1) (init.set k w) u (by simpa using ht) hv]
        exact List.getElem?_set_ne (by omega)
      | none =>
        rw [queueFrom, hfb]
        exact ih (k + 1) init u (by simpa using ht) hv

/-- Every index tag in a queue segment starting at k is at least k. -/
theorem queueFrom_fst_ge {α : Type} (f : Outcome → Option α) (bs : List Outcome) :
    ∀ (k : Nat), ∀ m ∈ queueFrom f k bs, k ≤ m.1 := by
  induction bs with
  | nil => intro k m hm; simp [queueFrom] at hm
  | cons b rest ih =>
    intro k m hm
    cases hfb : f b with
    | some v =>
      rw [queueFrom, hfb] at hm
      rcases List.mem_cons.mp hm with h | h
      · subst h; exact Nat.le_refl k
      · exact Nat.le_of_lt (ih (k + 1) m h)
    | none =>
      rw [queueFrom, hfb] at hm
      exact Nat.le_of_lt (ih (k + 1) m hm)

/-- Index tags in a queue segment are pairwise distinct. -/
theorem queueFrom_pairwise {α : Type} (f : Outcome → Option α) (bs : List Outcome) :
    ∀ (k : Nat), (queueFrom f k bs).Pairwise (fun a b => a.1 ≠ b.1) := by
  induction bs with
  | nil => intro k; simp [queueFrom]
  | cons b rest ih =>
    intro k
    cases hfb : f b with
    | some v =>
      rw [queueFrom, hfb]
      refine List.pairwise_cons.mpr ⟨?_, ih (k + 1)⟩
      intro m hm
      have := queueFrom_fst_ge f rest (k + 1) m hm
      simp only []
      omega
    | none =>
      rw [queueFrom, hfb]
      exact ih (k + 1)

/-- Mapping a function over queue message values commutes with building the
queue. -/
theorem queueFrom_map {α β : Type} (f : Outcome → Option α) (g : α → β)
    (bs : List Outcome) :
    ∀ (k : Nat), (queueFrom f k bs).map (fun m => (m.1, g m.2)) =
      queueFrom (fun o => (f o).map g) k bs := by
  induction bs with
  | nil => intro k; rfl
  | cons b rest ih =>
    intro k
    cases hfb : f b with
    | some v => simp [queueFrom, hfb, ih (k + 1)]
    | none => simp [queueFrom, hfb, ih (k + 1)]

/-- Applying a permutation of a queue with pairwise-distinct index tags
gives the same slot list: slot assignment order does not matter when every
slot is written at most once. -/
theorem applyQueue_perm {α : Type} (init : List α) (msgs msgs2 : List (Nat × α))
    (hperm : msgs2.Perm msgs) (hpair : msgs.Pairwise (fun a b => a.1 ≠ b.1)) :
    applyQueue init msgs2 = applyQueue init msgs := by
  refine List.Perm.foldl_eq' hperm ?_ init
  intro x hx y hy z
  by_cases hxy : x = y
  · subst hxy; rfl
  · have hsymm : Symmetric (fun a b : Nat × α => a.1 ≠ b.1) := by
      intro a b h e
      exact h e.symm
    have hx2 : x ∈ msgs := hperm.subset hx
    have hy2 : y ∈ msgs := hperm.subset hy
    have hne : x.1 ≠ y.1 := hpair.forall hsymm hx2 hy2 hxy
    exact List.set_comm x.2 y.2 z hne

/-- Unfolding of one step of the reconciliation loop. -/
theorem reconcile_succ (n : Nat) (results : List String)
    (errors : List (Option (String × String))) :
    reconcile (n + 1) results errors =
      (if results.getD n "" = NO_RESULT ∧ (reconcile n results errors).getD n none = none then
        (reconcile n results errors).set n (some sentinelError)
      else reconcile n results errors) := by
  rw [reconcile, reconcile, List.range_succ, List.foldl_append, List.foldl_cons,
    List.foldl_nil]

/-- Reconciliation preserves the length of the error list. -/
theorem reconcile_length (n : Nat) (results : List String)
    (errors : List (Option (String × String))) :
    (reconcile n results errors).length = errors.length := by
  induction n with
  | zero => rfl
  | succ n ih =>
    rw [reconcile_succ]
    split
    · rw [List.length_set, ih]
    · exact ih

/-- Error slots at or beyond the loop bound are untouched by reconciliation. -/
theorem reconcile_getElem_ge (n : Nat) (results : List String)
    (errors : List (Option (String × String))) :
    ∀ j, n ≤ j → (reconcile n results errors)[j]? = errors[j]? := by
  induction n with
  | zero => intro j _; rfl
  | succ n ih =>
    intro j hj
    rw [reconcile_succ]
    split
    · rw [List.getElem?_set_ne (by omega)]
      exact ih j (by omega)
    · exact ih j (by omega)

/-- Value of an error slot below the loop bound after reconciliation: the
synthesized no-result error when the result slot is the sentinel and no
error was recorded, the recorded error otherwise. -/
theorem reconcile_getElem_lt (n : Nat) (results : List String)
    (errors : List (Option (String × String))) :
    ∀ j, j < n → j < errors.length →
      (reconcile n results errors)[j]? =
        some (if results.getD j "" = NO_RESULT ∧ errors.getD j none = none then
          some sentinelError
        else errors.getD j none) := by
  induction n with
  | zero => intro j hj _; omega
  | succ n ih =>
    intro j hj hjlen
    by_cases h : j < n
    · rw [reconcile_succ]
      split
      · rw [List.getElem?_set_ne (by omega)]
        exact ih j h hjlen
      · exact ih j h hjlen
    · have hjn : j = n := by omega
      subst hjn
      have hget : (reconcile j results errors).getD j none = errors.getD j none := by
        rw [List.getD_eq_getElem?_getD, List.getD_eq_getElem?_getD,
          reconcile_getElem_ge j results errors j (Nat.le_refl j)]
      rw [reconcile_succ, hget]
      split
      · exact List.getElem?_set_self (by rw [reconcile_length]; exact hjlen)
      · rw [reconcile_getElem_ge j results errors j (Nat.le_refl j),
          List.getD_eq_getElem?_getD, List.getElem?_eq_getElem hjlen]
        rfl

/-- Length of the gathered result list. -/
theorem gatherResults_length (n : Nat) (retq : List (Nat × String)) :
    (gatherResults n retq).length = n := by
  rw [gatherResults, applyQueue_length, List.length_replicate]

/-- Length of the gathered error list. -/
theorem gatherErrors_length (n : Nat) (errq : List (Nat × (String × String))) :
    (gatherErrors n errq).length = n := by
  rw [gatherErrors, applyQueue_length, List.length_replicate]

/-- Result slot of execute_concurrently for process t: the returned value
when the function returned, the NO_RESULT sentinel otherwise. -/
theorem gatherResults_slot (bs : List Outcome) (t : Nat) (ht : t < bs.length) :
    (gatherResults bs.length (returnQueueOf bs))[t]? =
      some (match bs.getD t Outcome.noMessage with
            | Outcome.returned v => v
            | _ => NO_RESULT) := by
  cases hb : bs.getD t Outcome.noMessage with
  | returned v =>
    have h := applyQueue_queueFrom_hit outcomeReturn Outcome.noMessage bs 0
      (List.replicate bs.length NO_RESULT) t v ht (by simp) (by rw [hb]; rfl)
    simpa [gatherResults, returnQueueOf] using h
  | raised kind msg =>
    have h := applyQueue_queueFrom_miss outcomeReturn Outcome.noMessage bs 0
      (List.replicate bs.length NO_RESULT) t ht (by rw [hb]; rfl)
    simp only [Nat.zero_add] at h
    simp [gatherResults, returnQueueOf, h, List.getElem?_replicate, ht]
  | noMessage =>
    have h := applyQueue_queueFrom_miss outcomeReturn Outcome.noMessage bs 0
      (List.replicate bs.length NO_RESULT) t ht (by rw [hb]; rfl)
    simp only [Nat.zero_add] at h
    simp [gatherResults, returnQueueOf, h, List.getElem?_replicate, ht]

/-- Error slot of execute_concurrently before reconciliation for process t:
the (kind, message) pair when the function raised, none otherwise. -/
theorem gatherErrors_slot (bs : List Outcome) (t : Nat) (ht : t < bs.length) :
    (gatherErrors bs.length (errorQueueOf bs))[t]? =
      some (match bs.getD t Outcome.noMessage with
            | Outcome.raised kind msg => some (kind, msg)
            | _ => none) := by
  rw [gatherErrors, errorQueueOf, queueFrom_map]
  cases hb : bs.getD t Outcome.noMessage with
  | returned v =>
    have h := applyQueue_queueFrom_miss (fun o => (outcomeError o).map some)
      Outcome.noMessage bs 0 (List.replicate bs.length none) t ht (by rw [hb]; rfl)
    simp only [Nat.zero_add] at h
    simp [h, List.getElem?_replicate, ht]
  | raised kind msg =>
    have h := applyQueue_queueFrom_hit (fun o => (outcomeError o).map some)
      Outcome.noMessage bs 0 (List.replicate bs.length none) t (some (kind, msg)) ht
      (by simp) (by rw [hb]; rfl)
    simpa using h
  | noMessage =>
    have h := applyQueue_queueFrom_miss (fun o => (outcomeError o).map some)
      Outcome.noMessage bs 0 (List.replicate bs.length none) t ht (by rw [hb]; rfl)
    simp only [Nat.zero_add] at h
    simp [h, List.getElem?_replicate, ht]

/-- Length of the reconciled error list of execute_concurrently. -/
theorem finalErrors_length (bs : List Outcome) :
    (reconcile bs.length (gatherResults bs.length (returnQueueOf bs))
      (gatherErrors bs.length (errorQueueOf bs))).length = bs.length := by
  rw [reconcile_length, gatherErrors_length]

/-- Error slot of execute_concurrently after reconciliation for process t. -/
theorem finalErrors_slot (bs : List Outcome) (t : Nat) (ht : t < bs.length) :
    (reconcile bs.length (gatherResults bs.length (returnQueueOf bs))
      (gatherErrors bs.length (errorQueueOf bs)))[t]? =
      some (match bs.getD t Outcome.noMessage with
            | Outcome.returned v => if v = NO_RESULT then some sentinelError else none
            | Outcome.raised kind msg => some (kind, msg)
            | Outcome.noMessage => some sentinelError) := by
  have hlen : t < (gatherErrors bs.length (errorQueueOf bs)).length := by
    rw [gatherErrors_length]; exact ht
  rw [reconcile_getElem_lt bs.length _ _ t ht hlen]
  have hres : (gatherResults bs.length (returnQueueOf bs)).getD t "" =
      (match bs.getD t Outcome.noMessage with
       | Outcome.returned v => v
       | _ => NO_RESULT) := by
    rw [List.getD_eq_getElem?_getD, gatherResults_slot bs t ht]
    rfl
  have herr : (gatherErrors bs.length (errorQueueOf bs)).getD t none =
      (match bs.getD t Outcome.noMessage with
       | Outcome.raised kind msg => some (kind, msg)
       | _ => none) := by
    rw [List.getD_eq_getElem?_getD, gatherErrors_slot bs t ht]
    rfl
  simp only [hres, herr]
  cases hb : bs.getD t Outcome.noMessage with
  | returned v =>
    by_cases hv : v = NO_RESULT
    · simp [hv, NO_RESULT]
    · simp [hv]
  | raised kind msg => simp [NO_RESULT]
  | noMessage => simp [NO_RESULT]

/-- Order independence of the collection phase: permuting the drained queue
contents of a batch does not change the outcome. -/
theorem collectPhase_perm (bs : List Outcome) (retq : List (Nat × String))
    (errq : List (Nat × (String × String))) (flag : Bool)
    (hr : retq.Perm (returnQueueOf bs)) (he : errq.Perm (errorQueueOf bs)) :
    collectPhase bs.length retq errq flag =
      collectPhase bs.length (returnQueueOf bs) (errorQueueOf bs) flag := by
  have h1 : gatherResults bs.length retq = gatherResults bs.length (returnQueueOf bs) :=
    applyQueue_perm _ _ _ hr (queueFrom_pairwise outcomeReturn bs 0)
  have h2 : gatherErrors bs.length errq = gatherErrors bs.length (errorQueueOf bs) := by
    refine applyQueue_perm _ _ _ (he.map _) ?_
    exact List.pairwise_map.mpr ((queueFrom_pairwise outcomeError bs 0).imp fun h => h)
  simp only [collectPhase, h1, h2]

/-- A join never waits past its timeout. -/
theorem joinWait_le (e : Option ℚ) (now d : ℚ) (hd : 0 ≤ d) :
    joinWait e now d ≤ now + d := by
  cases e with
  | none => simp [joinWait]
  | some te =>
    simp only [joinWait]
    exact max_le (by linarith) (min_le_right te (now + d))

/-- A join never returns before its start time. -/
theorem le_joinWait (e : Option ℚ) (now d : ℚ) (hd : 0 ≤ d) :
    now ≤ joinWait e now d := by
  cases e with
  | none => simp [joinWait]; linarith
  | some te =>
    simp only [joinWait]
    exact le_max_left now _

/-- The first join of a per-process block ends by the shared deadline or at
once if the deadline has passed. -/
theorem joinWait_remaining_le (e : Option ℚ) (deadline now : ℚ) :
    joinWait e now (max 0 (deadline - now)) ≤ max now deadline := by
  have h := joinWait_le e now (max 0 (deadline - now)) (le_max_left 0 _)
  have heq : now + max 0 (deadline - now) = max now deadline := by
    rw [← max_add_add_left]
    rw [add_zero, add_sub_cancel]
  rw [heq] at h
  exact h

/-- Each per-process block of the join loop ends at most two escalation
re-join timeouts past the later of its start time and the shared deadline. -/
theorem handleProcess_endTime_le (deadline now : ℚ) (p : ProcBehavior) :
    (handleProcess deadline now p).endTime ≤
      max now deadline + 2 * TIMEOUT_TERMINATE_PROCESS := by
  have htp : (0 : ℚ) ≤ TIMEOUT_TERMINATE_PROCESS := by norm_num [TIMEOUT_TERMINATE_PROCESS]
  have h1 : joinWait p.selfExit now (max 0 (deadline - now)) ≤ max now deadline :=
    joinWait_remaining_le p.selfExit deadline now
  have h2 := joinWait_le p.selfExit (joinWait p.selfExit now (max 0 (deadline - now)))
    TIMEOUT_TERMINATE_PROCESS htp
  have h3 := joinWait_le p.selfExit
    (joinWait p.selfExit (joinWait p.selfExit now (max 0 (deadline - now)))
      TIMEOUT_TERMINATE_PROCESS) TIMEOUT_TERMINATE_PROCESS htp
  simp only [handleProcess]
  split_ifs <;> simp only [] <;> linarith

/-- Linear bound for the whole join loop: starting at time now, it finishes
within two escalation re-join timeouts per process past the later of now
and the deadline. -/
theorem shutdownLoop_le (deadline : ℚ) (procs : List ProcBehavior) :
    ∀ now : ℚ, shutdownLoop deadline now procs ≤
      max now deadline + 2 * TIMEOUT_TERMINATE_PROCESS * procs.length := by
  induction procs with
  | nil =>
    intro now
    simp only [shutdownLoop, List.length_nil, Nat.cast_zero, mul_zero, add_zero]
    exact le_max_left now deadline
  | cons p rest ih =>
    intro now
    rw [shutdownLoop]
    refine le_trans (ih _) ?_
    have htp : (0 : ℚ) ≤ TIMEOUT_TERMINATE_PROCESS := by norm_num [TIMEOUT_TERMINATE_PROCESS]
    have h1 := handleProcess_endTime_le deadline now p
    have h2 : max (handleProcess deadline now p).endTime deadline ≤
        max now deadline + 2 * TIMEOUT_TERMINATE_PROCESS := by
      refine max_le h1 ?_
      have := le_max_right now deadline
      linarith
    have hlen : ((p :: rest).length : ℚ) = (rest.length : ℚ) + 1 := by
      simp [List.length_cons]
    rw [hlen]
    have hcast : (0 : ℚ) ≤ (rest.length : ℚ) := Nat.cast_nonneg rest.length
    nlinarith [h2, htp, hcast]

/-- The kill stage of the escalation is only ever reached after the
terminate stage. -/
theorem handleProcess_killed_terminated (deadline now : ℚ) (p : ProcBehavior) :
    (handleProcess deadline now p).killed = true →
      (handleProcess deadline now p).terminated = true := by
  simp only [handleProcess]
  split_ifs <;> simp

/-- Dispatch never lets an exception escape: the try-except of handle-frame
turns every escaping exception into a logged one. -/
theorem handleFrame_escaped (env : HandlerEnv) (f : Frame) :
    (handleFrame env f).escaped = false := by
  rw [handleFrame]
  split
  · rfl
  · next h => simpa using h

/-- Because no handle-frame call lets an exception escape, the frame loop
processes every decoded frame. -/
theorem processFramesLoop_eq_map (env : HandlerEnv) (frames : List Frame) :
    processFramesLoop env frames = frames.map (handleFrame env) := by
  induction frames with
  | nil => rfl
  | cons f rest ih => simp [processFramesLoop, handleFrame_escaped, ih]

/-- C6: for every frame processed by the dispatch step of the worker, the
frame is delivered to a handler (RPC packet handler or log queue) only if
its integrity check frame.ok() passed; a frame failing the check is
discarded silently: no delivery, no warning, no logged or escaping
exception. -/
theorem frame_dispatch_requires_valid (env : HandlerEnv) (f : Frame) :
    ((handleFrame env f).delivered.isSome = true → f.ok = true) ∧
    (f.ok = false → handleFrame env f = ⟨none, false, false, false⟩) := by
  cases hok : f.ok with
  | false => simp [handleFrame, handleFrameBody, hok]
  | true => simp [hok]

/-- C6 witness: a concrete invalid frame is discarded with no delivery and
no other observable effect. -/
theorem frame_dispatch_requires_valid_witness :
    handleFrame ⟨fun _ => false, fun _ => false⟩ ⟨99, [], false⟩ =
      ⟨none, false, false, false⟩ :=
  (frame_dispatch_requires_valid ⟨fun _ => false, fun _ => false⟩ ⟨99, [], false⟩).2 rfl

/-- C7 counterexample: an invalid frame whose address has no registered
handler is dropped silently, with no warning, because the integrity check
comes first; so the claim that every frame with an unhandled address is
dropped with a warning fails on invalid frames. -/
theorem invalid_unhandled_frame_not_warned :
    (handleFrame ⟨fun _ => false, fun _ => false⟩ ⟨99, [], false⟩).warned = false ∧
    (handleFrame ⟨fun _ => false, fun _ => false⟩ ⟨99, [], false⟩).escaped = false :=
  ⟨rfl, rfl⟩

/-- C7 (amended): frame dispatch never raises out of the worker loop: no
exception escapes a handle-frame call, a valid frame whose address is
neither the RPC address nor the log address is dropped with a warning (an
invalid one is dropped silently), and the read-and-dispatch loop processes
every subsequent frame. -/
theorem frame_dispatch_never_escapes (env : HandlerEnv) (frames : List Frame)
    (f : Frame) :
    (handleFrame env f).escaped = false ∧
    (f.ok = true → f.address ≠ DEFAULT_ADDRESS → f.address ≠ STDOUT_ADDRESS →
      handleFrame env f = ⟨none, false, false, true⟩) ∧
    processFramesLoop env frames = frames.map (handleFrame env) ∧
    (processFramesLoop env frames).length = frames.length := by
  refine ⟨handleFrame_escaped env f, ?_, processFramesLoop_eq_map env frames, ?_⟩
  · intro hok h1 h2
    simp [handleFrame, handleFrameBody, hok, h1, h2]
  · rw [processFramesLoop_eq_map]
    exact List.length_map _ _

/-- C7 witness: a concrete valid frame with an unregistered address is
dropped with exactly the warning, and a concrete loop processes both of
its frames. -/
theorem frame_dispatch_never_escapes_witness :
    handleFrame ⟨fun _ => false, fun _ => false⟩ ⟨99, [], true⟩ =
      ⟨none, false, false, true⟩ :=
  (frame_dispatch_never_escapes ⟨fun _ => false, fun _ => false⟩ [] ⟨99, [], true⟩).2.1
    rfl (by decide) (by decide)

/-- C8 counterexample: in the state where a worker object exists but its
thread is dead, the client is not running, yet start launches no worker at
all because it only checks whether the worker field is none; so the claim
that start launches exactly one worker from every not-running state fails. -/
theorem start_dead_worker_launches_none :
    isAlive ⟨false, some false⟩ = false ∧
    (start ⟨false, some false⟩).2 = 0 ∧
    (start ⟨false, some false⟩).1 = ⟨false, some false⟩ := by
  decide

/-- C8 (amended): start never launches a worker when a worker object
exists, so it never creates a second concurrent worker and on a running
client its only effect is clearing the stop flag; it launches exactly one
worker precisely when no worker object exists, clearing the stop flag. -/
theorem start_launches_iff_no_worker (s : ClientState) :
    ((start s).2 = 1 ↔ s.worker = none) ∧
    ((start s).2 = 0 ↔ s.worker ≠ none) ∧
    (start s).1.stopSet = false ∧
    (start s).1.worker = (if s.worker = none then some true else s.worker) ∧
    (isAlive s = true → (start s).1 = { s with stopSet := false } ∧ (start s).2 = 0) := by
  obtain ⟨st, w⟩ := s
  cases st <;> rcases w with _ | b <;> first
    | decide
    | (cases b <;> decide)

/-- C8 witness: start on a concrete running client only clears the stop
flag and launches nothing. -/
theorem start_launches_iff_no_worker_witness :
    (start ⟨true, some true⟩).1 = { ClientState.mk true (some true) with stopSet := false } ∧
    (start ⟨true, some true⟩).2 = 0 :=
  (start_launches_iff_no_worker ⟨true, some true⟩).2.2.2.2 rfl

/-- C10: when close raises the join-timeout error, the stop flag remains
set and the worker reference is not cleared, so is-alive still reports the
leaked worker thread and a subsequent close joins the same thread again
instead of treating the client as closed. -/
theorem close_join_timeout_keeps_worker (s : ClientState) (h : s.worker = some true) :
    (close s false).raised = true ∧
    (close s false).state.stopSet = true ∧
    (close s false).state.worker = some true ∧
    isAlive (close s false).state = true ∧
    (close (close s false).state false).joinAttempted = true ∧
    (close (close s false).state true).joinAttempted = true := by
  obtain ⟨st, w⟩ := s
  replace h : w = some true := h
  subst h
  cases st <;> decide

/-- C10 witness: the concrete open client with a live worker and an unset
stop flag exhibits the whole scenario. -/
theorem close_join_timeout_keeps_worker_witness :
    (close ⟨false, some true⟩ false).raised = true ∧
    (close ⟨false, some true⟩ false).state.stopSet = true ∧
    (close ⟨false, some true⟩ false).state.worker = some true ∧
    isAlive (close ⟨false, some true⟩ false).state = true ∧
    (close (close ⟨false, some true⟩ false).state false).joinAttempted = true ∧
    (close (close ⟨false, some true⟩ false).state true).joinAttempted = true :=
  close_join_timeout_keeps_worker ⟨false, some true⟩ rfl

/-- C2 counterexample: when stopping the worker raises the join-timeout
DeviceError, transport close propagates it without attempting the
handle-lock release or the serial close, so the two cleanup steps are not
both attempted. -/
theorem transport_close_skips_unlock_on_stop_failure :
    (transportClose ⟨false, some true⟩ false false false).1.error = some "DeviceError" ∧
    (transportClose ⟨false, some true⟩ false false false).1.unlockAttempted = false ∧
    (transportClose ⟨false, some true⟩ false false false).1.serialCloseAttempted = false :=
  ⟨rfl, rfl, rfl⟩

/-- C2 (amended): transport close runs its steps in order worker stop,
handle-lock release, serial close; the first failing step has its error
surfaced to the caller, never swallowed, but aborts the later steps, so the
lock release is attempted exactly when stopping the worker succeeded, and
the call is error-free exactly when every step succeeded. -/
theorem transport_close_error_policy (s : ClientState) (w u c : Bool) :
    (transportClose s w u c).1.stopWorkerAttempted = true ∧
    ((transportClose s w u c).1.unlockAttempted = true ↔ (close s w).raised = false) ∧
    ((transportClose s w u c).1.serialCloseAttempted = true ↔
      ((close s w).raised = false ∧ u = false)) ∧
    ((transportClose s w u c).1.error = none ↔
      ((close s w).raised = false ∧ u = false ∧ c = false)) := by
  cases hr : (close s w).raised <;> cases u <;> cases c <;>
    simp [transportClose, hr]

/-- C1 counterexample: with a 10 second deadline, the join loop over
stubborn processes finishes at time 16 with one outstanding process but at
time 22 with two, so the shutdown latency beyond the deadline grows with
the number of outstanding tasks instead of being bounded by a constant. -/
theorem shutdown_latency_grows_with_outstanding :
    shutdownTime 10 [stubbornProc] = 16 ∧
    shutdownTime 10 [stubbornProc, stubbornProc] = 22 ∧
    shutdownTime 10 [stubbornProc] - 10 <
      shutdownTime 10 [stubbornProc, stubbornProc] - 10 := by
  refine ⟨?_, ?_, ?_⟩ <;>
    norm_num [shutdownTime, shutdownLoop, handleProcess, joinWait, aliveAt,
      stubbornProc, TIMEOUT_TERMINATE_PROCESS]

/-- C1 (amended): each process still running when its individual wait
expires is escalated in exactly two bounded stages, the kill stage only
ever after the terminate stage, and the total shutdown latency of the batch
is bounded by the deadline plus two escalation re-join timeouts per
process: a bound linear in the number of tasks, not a constant. -/
theorem execute_concurrently_escalation_linear_bound (deadline : ℚ)
    (procs : List ProcBehavior) (hd : 0 ≤ deadline) :
    shutdownTime deadline procs ≤
      deadline + 2 * TIMEOUT_TERMINATE_PROCESS * procs.length ∧
    ∀ now p, (handleProcess deadline now p).killed = true →
      (handleProcess deadline now p).terminated = true := by
  constructor
  · have h := shutdownLoop_le deadline procs 0
    rw [shutdownTime]
    rw [max_eq_right hd] at h
    exact h
  · intro now p
    exact handleProcess_killed_terminated deadline now p

/-- C1 witness: the linear bound instantiated at a concrete batch. -/
theorem execute_concurrently_escalation_linear_bound_witness :
    shutdownTime 10 [stubbornProc] ≤
      10 + 2 * TIMEOUT_TERMINATE_PROCESS * ([stubbornProc].length) ∧
    ∀ now p, (handleProcess 10 now p).killed = true →
      (handleProcess 10 now p).terminated = true :=
  execute_concurrently_escalation_linear_bound 10 [stubbornProc] (by norm_num)

/-- C3: for every batch of N call specs run with the raise flag disabled,
the collection returns a result list and an error list both of length N,
the entries at index t determined by the outcome of call spec t alone, and
this holds for every completion order of the processes, modeled as an
arbitrary permutation of the drained queue contents. -/
theorem execute_concurrently_index_alignment (bs : List Outcome)
    (retq : List (Nat × String)) (errq : List (Nat × (String × String)))
    (hr : retq.Perm (returnQueueOf bs)) (he : errq.Perm (errorQueueOf bs)) :
    ∃ results errors,
      collectPhase bs.length retq errq false = Except.ok (results, errors) ∧
      results.length = bs.length ∧ errors.length = bs.length ∧
      (∀ t, t < bs.length → results[t]? =
        some (match bs.getD t Outcome.noMessage with
              | Outcome.returned v => v
              | _ => NO_RESULT)) ∧
      (∀ t, t < bs.length → errors[t]? =
        some (match bs.getD t Outcome.noMessage with
              | Outcome.returned v => if v = NO_RESULT then some sentinelError else none
              | Outcome.raised kind msg => some (kind, msg)
              | Outcome.noMessage => some sentinelError)) := by
  refine ⟨gatherResults bs.length (returnQueueOf bs),
    reconcile bs.length (gatherResults bs.length (returnQueueOf bs))
      (gatherErrors bs.length (errorQueueOf bs)), ?_, ?_, ?_, ?_, ?_⟩
  · rw [collectPhase_perm bs retq errq false hr he]
    simp [collectPhase]
  · exact gatherResults_length _ _
  · exact finalErrors_length bs
  · exact fun t ht => gatherResults_slot bs t ht
  · exact fun t ht => finalErrors_slot bs t ht

/-- C3 witness: a concrete batch of two specs collected from queues drained
in reversed completion order still returns index-aligned lists of length 2. -/
theorem execute_concurrently_index_alignment_witness :
    ∃ results errors,
      collectPhase 2 [(1, "b"), (0, "a")] [] false = Except.ok (results, errors) ∧
      results.length = 2 ∧ errors.length = 2 := by
  obtain ⟨r, e, h1, h2, h3, _, _⟩ :=
    execute_concurrently_index_alignment [Outcome.returned "a", Outcome.returned "b"]
      [(1, "b"), (0, "a")] [] (by decide) (by decide)
  exact ⟨r, e, h1, h2, h3⟩

/-- C4: after the collection phase every index below N is resolved with
exactly one of a result value or an error: the result slot holds a real
value (not the NO_RESULT sentinel) exactly when the error slot is none, and
an index whose process delivered neither gets the synthesized no-result
error, so no slot is left unresolved. -/
theorem execute_concurrently_slots_resolved (bs : List Outcome) (t : Nat)
    (ht : t < bs.length) :
    ∃ results errors,
      executeConcurrently bs false = Except.ok (results, errors) ∧
      (results.getD t "" ≠ NO_RESULT ↔ errors.getD t none = none) ∧
      (bs.getD t Outcome.noMessage = Outcome.noMessage →
        errors.getD t none = some sentinelError) := by
  refine ⟨gatherResults bs.length (returnQueueOf bs),
    reconcile bs.length (gatherResults bs.length (returnQueueOf bs))
      (gatherErrors bs.length (errorQueueOf bs)), ?_, ?_, ?_⟩
  · simp [executeConcurrently, collectPhase]
  · have hres : (gatherResults bs.length (returnQueueOf bs)).getD t "" =
        (match bs.getD t Outcome.noMessage with
         | Outcome.returned v => v
         | _ => NO_RESULT) := by
      rw [List.getD_eq_getElem?_getD, gatherResults_slot bs t ht]
      rfl
    have herr : (reconcile bs.length (gatherResults bs.length (returnQueueOf bs))
        (gatherErrors bs.length (errorQueueOf bs))).getD t none =
        (match bs.getD t Outcome.noMessage with
         | Outcome.returned v => if v = NO_RESULT then some sentinelError else none
         | Outcome.raised kind msg => some (kind, msg)
         | Outcome.noMessage => some sentinelError) := by
      rw [List.getD_eq_getElem?_getD, finalErrors_slot bs t ht]
      rfl
    rw [hres, herr]
    cases hb : bs.getD t Outcome.noMessage with
    | returned v =>
      by_cases hv : v = NO_RESULT
      · simp [hv]
      · simp [hv]
    | raised kind msg => simp [NO_RESULT]
    | noMessage => simp [NO_RESULT]
  · intro hb
    have herr : (reconcile bs.length (gatherResults bs.length (returnQueueOf bs))
        (gatherErrors bs.length (errorQueueOf bs))).getD t none =
        (match bs.getD t Outcome.noMessage with
         | Outcome.returned v => if v = NO_RESULT then some sentinelError else none
         | Outcome.raised kind msg => some (kind, msg)
         | Outcome.noMessage => some sentinelError) := by
      rw [List.getD_eq_getElem?_getD, finalErrors_slot bs t ht]
      rfl
    rw [herr, hb]

/-- C4 witness: the single-spec batch whose task returned a real value
resolves its slot with a result and no error. -/
theorem execute_concurrently_slots_resolved_witness :
    ∃ results errors,
      executeConcurrently [Outcome.returned "x"] false = Except.ok (results, errors) ∧
      (results.getD 0 "" ≠ NO_RESULT ↔ errors.getD 0 none = none) ∧
      ([Outcome.returned "x"].getD 0 Outcome.noMessage = Outcome.noMessage →
        errors.getD 0 none = some sentinelError) :=
  execute_concurrently_slots_resolved [Outcome.returned "x"] 0 (by decide)

/-- Reconciled errors contain some entry exactly when some task raised or
delivered nothing, provided no task returned the exact sentinel string. -/
theorem finalErrors_any_iff (bs : List Outcome)
    (hns : Outcome.returned NO_RESULT ∉ bs) :
    ((reconcile bs.length (gatherResults bs.length (returnQueueOf bs))
      (gatherErrors bs.length (errorQueueOf bs))).any Option.isSome = true) ↔
    ∃ o ∈ bs, outcomeReturn o = none := by
  rw [List.any_eq_true]
  constructor
  · rintro ⟨x, hx, hxs⟩
    obtain ⟨t, ht⟩ := List.mem_iff_getElem?.mp hx
    have htlen : t < bs.length := by
      by_contra hge
      rw [List.getElem?_eq_none] at ht
      · exact Option.noConfusion ht
      · rw [finalErrors_length]
        omega
    rw [finalErrors_slot bs t htlen] at ht
    have hxval := Option.some.inj ht
    have hmem : bs.getD t Outcome.noMessage ∈ bs := by
      rw [List.getD_eq_getElem bs Outcome.noMessage htlen]
      exact List.getElem_mem htlen
    refine ⟨bs.getD t Outcome.noMessage, hmem, ?_⟩
    cases hb : bs.getD t Outcome.noMessage with
    | returned v =>
      exfalso
      rw [hb] at hxval
      by_cases hv : v = NO_RESULT
      · rw [hv] at hb
        rw [hb] at hmem
        exact hns hmem
      · simp only [if_neg hv] at hxval
        rw [← hxval] at hxs
        simp at hxs
    | raised kind msg => rfl
    | noMessage => rfl
  · rintro ⟨o, ho, hor⟩
    obtain ⟨t, ht⟩ := List.mem_iff_getElem?.mp ho
    have htlen : t < bs.length := by
      by_contra hge
      rw [List.getElem?_eq_none] at ht
      · exact Option.noConfusion ht
      · omega
    have hgd : bs.getD t Outcome.noMessage = o := by
      rw [List.getD_eq_getElem?_getD, ht]
      rfl
    have hslot := finalErrors_slot bs t htlen
    rw [hgd] at hslot
    cases o with
    | returned v => exact absurd hor (by simp [outcomeReturn])
    | raised kind msg =>
      refine ⟨some (kind, msg), List.mem_iff_getElem?.mpr ⟨t, ?_⟩, rfl⟩
      exact hslot
    | noMessage =>
      refine ⟨some sentinelError, List.mem_iff_getElem?.mpr ⟨t, ?_⟩, rfl⟩
      exact hslot

/-- C5 counterexample: a batch whose single task function completes
successfully (its outcome is a returned value) has no failed task, yet with
the raise flag enabled the executor raises the aggregate error, because the
returned value is the exact NO_RESULT sentinel string. -/
theorem execute_concurrently_raises_without_failure :
    (∀ o ∈ [Outcome.returned NO_RESULT], ∃ v, o = Outcome.returned v) ∧
    executeConcurrently [Outcome.returned NO_RESULT] true =
      Except.error [some sentinelError] := by
  constructor
  · intro o ho
    rw [List.mem_singleton] at ho
    exact ⟨NO_RESULT, ho⟩
  · rfl

/-- C5 (amended): the error policy is chosen at call time: provided no task
function returns the exact NO_RESULT sentinel string, the executor with the
raise flag set raises one aggregate error carrying the full per-task error
list exactly when at least one task failed (raised or delivered nothing);
with the flag clear it returns the full per-index pairs, where a raising
task contributes its own (kind, message) at its own index and every other
index is determined by its own task alone. -/
theorem execute_concurrently_error_policy (bs : List Outcome)
    (hns : Outcome.returned NO_RESULT ∉ bs) :
    ((∃ e, executeConcurrently bs true = Except.error e) ↔
      ∃ o ∈ bs, outcomeReturn o = none) ∧
    (∀ e, executeConcurrently bs true = Except.error e →
      executeConcurrently bs false =
        Except.ok (gatherResults bs.length (returnQueueOf bs), e)) ∧
    (∃ results errors,
      executeConcurrently bs false = Except.ok (results, errors) ∧
      errors.length = bs.length ∧
      ∀ t, t < bs.length → errors[t]? =
        some (match bs.getD t Outcome.noMessage with
              | Outcome.returned _ => none
              | Outcome.raised kind msg => some (kind, msg)
              | Outcome.noMessage => some sentinelError)) := by
  refine ⟨?_, ?_, ?_⟩
  · rw [← finalErrors_any_iff bs hns]
    cases hany : (reconcile bs.length (gatherResults bs.length (returnQueueOf bs))
        (gatherErrors bs.length (errorQueueOf bs))).any Option.isSome with
    | true =>
      simp only [executeConcurrently, collectPhase, hany]
      constructor
      · intro _
        trivial
      · intro _
        exact ⟨_, rfl⟩
    | false =>
      simp only [executeConcurrently, collectPhase, hany]
      simp
  · intro e he
    cases hany : (reconcile bs.length (gatherResults bs.length (returnQueueOf bs))
        (gatherErrors bs.length (errorQueueOf bs))).any Option.isSome with
    | true =>
      simp only [executeConcurrently, collectPhase, hany] at he ⊢
      simp at he
      rw [← he]
      rfl
    | false =>
      simp only [executeConcurrently, collectPhase, hany] at he
      simp at he
  · refine ⟨gatherResults bs.length (returnQueueOf bs),
      reconcile bs.length (gatherResults bs.length (returnQueueOf bs))
        (gatherErrors bs.length (errorQueueOf bs)), ?_, finalErrors_length bs, ?_⟩
    · simp [executeConcurrently, collectPhase]
    · intro t ht
      rw [finalErrors_slot bs t ht]
      cases hb : bs.getD t Outcome.noMessage with
      | returned v =>
        have hmem : bs.getD t Outcome.noMessage ∈ bs := by
          rw [List.getD_eq_getElem bs Outcome.noMessage ht]
          exact List.getElem_mem ht
        rw [hb] at hmem
        have hv : v ≠ NO_RESULT := by
          intro hv
          rw [hv] at hmem
          exact hns hmem
        simp [hv]
      | raised kind msg => rfl
      | noMessage => rfl

/-- C5 witness: a concrete batch with one success and one raising task
raises with the flag set and returns the per-index pairs with the flag
clear. -/
theorem execute_concurrently_error_policy_witness :
    (∃ e, executeConcurrently
        [Outcome.returned "a", Outcome.raised "RuntimeError" "boom"] true =
      Except.error e) ∧
    ∃ results errors,
      executeConcurrently
          [Outcome.returned "a", Outcome.raised "RuntimeError" "boom"] false =
        Except.ok (results, errors) ∧
      errors.length = 2 := by
  obtain ⟨h1, _, r, e, h3, h4, _⟩ :=
    execute_concurrently_error_policy
      [Outcome.returned "a", Outcome.raised "RuntimeError" "boom"] (by decide)
  exact ⟨h1.mpr ⟨Outcome.raised "RuntimeError" "boom", by decide, rfl⟩, r, e, h3, h4⟩

/-- C9: a call spec whose function successfully returns the exact sentinel
string is indistinguishable from a process that produced nothing: with the
raise flag clear the executor records the synthesized ResultNotReceivedError
at that index, exactly as for a process with no message, and with the raise
flag set it raises, even though the process delivered its result. -/
theorem sentinel_return_indistinguishable :
    executeConcurrently [Outcome.returned NO_RESULT] false =
      Except.ok ([NO_RESULT], [some sentinelError]) ∧
    executeConcurrently [Outcome.returned NO_RESULT] true =
      Except.error [some sentinelError] ∧
    executeConcurrently [Outcome.noMessage] false =
      Except.ok ([NO_RESULT], [some sentinelError]) ∧
    executeConcurrently [Outcome.noMessage] true =
      Except.error [some sentinelError] :=
  ⟨rfl, rfl, rfl, rfl⟩

end Gazoo
